import Mathlib

/-!
Shallow embedding of the form/field CRUD core of the techentia-pdf-formatter
repository: the zod `FormSchema` validation, the Firestore-backed
`formServerUtils` repository operations (`src/lib/utils/server/form/
form.server.utils.ts`), the HTTP dispatch handler (API route), and the
client store's `validateFormData` (`src/lib/store/form/form.store.ts`).

External collaborators (the Firestore SDK's document-id generator and
`z.string().url()`) are not part of the repository source; they appear as
explicit parameters (`gen : Nat → String`, `isValidUrl : String → Bool`)
of the embedded operations.  The document store is an association list
from document id to stored document; Firestore server timestamps are
modelled as a `Nat` clock value `now` passed to each mutating operation.
-/

/-- `FieldPositionSchema`: x/y/width/height/pdfPageNo.  `z.number()` values
are modelled as `Int`. -/
structure FieldPosition where
  x : Int
  y : Int
  width : Int
  height : Int
  pdfPageNo : Int
deriving DecidableEq, Repr

/-- `SelectOptionSchema`: value/label strings. -/
structure SelectOption where
  value : String
  label : String
deriving DecidableEq, Repr

/-- The optional per-field `validation` object of `FormFieldSchema`:
min/max/minLength/maxLength/pattern, each optional. -/
structure FieldValidation where
  min : Option Int := none
  max : Option Int := none
  minLength : Option Int := none
  maxLength : Option Int := none
  pattern : Option String := none
deriving DecidableEq, Repr

/-- A form field as described by `FormFieldSchema`.  `type` is kept as a
raw string so that membership in the closed enumeration is a checkable
validation rule, exactly as in the zod schema. -/
structure FormField where
  id : Option String := none
  name : String
  label : String
  type : String
  required : Option Bool := none
  placeholder : Option String := none
  options : Option (List SelectOption) := none
  position : Option FieldPosition := none
  validation : Option FieldValidation := none
deriving DecidableEq, Repr

/-- The closed field-type enumeration of `FormFieldSchema.type`. -/
def fieldTypes : List String :=
  ["input", "textarea", "select", "date", "number", "email", "file", "checkbox", "radio"]

/-- `z.enum([...])` membership test for a field type. -/
def validFieldType (t : String) : Bool := fieldTypes.contains t

/-- `FormFieldSchema` validation: non-empty name and label, type in the
closed enumeration (the remaining components are well-typed by
construction in this embedding). -/
def validFormField (f : FormField) : Bool :=
  f.name != "" && f.label != "" && validFieldType f.type

/-- The output of a successful `FormSchema.safeParse`: zod strips keys not
declared in the schema, so the parsed object carries exactly id?/name/
description?/pdfUrl/fields (no timestamps). -/
structure ParsedForm where
  id : Option String := none
  name : String
  description : Option String := none
  pdfUrl : String
  fields : List FormField
deriving DecidableEq, Repr

/-- `FormSchema` validation over the three non-trivially-constrained
components: `name` non-empty (`min(1)`), `pdfUrl` a valid URL
(`z.string().url()`, abstracted as `isValidUrl`), `fields` non-empty
(`min(1)`) with each field valid. -/
def validFormParts (isValidUrl : String → Bool) (name pdfUrl : String)
    (fields : List FormField) : Bool :=
  name != "" && isValidUrl pdfUrl && !fields.isEmpty && fields.all validFormField

/-- The request body handed to `createForm` (a `Partial<Form>`) and to
`updateForm` (the update payload): every Form attribute optionally
present. -/
structure FormBody where
  id : Option String := none
  name : Option String := none
  description : Option String := none
  pdfUrl : Option String := none
  fields : Option (List FormField) := none
  createdAt : Option Nat := none
  updatedAt : Option Nat := none
deriving DecidableEq, Repr

/-- `FormSchema.safeParse` applied to a request body: requires name,
pdfUrl and fields to be present and the schema rules to hold; unknown
keys (timestamps) are stripped. -/
def parseFormInput (isValidUrl : String → Bool) (b : FormBody) : Option ParsedForm :=
  match b.name, b.pdfUrl, b.fields with
  | some n, some u, some fs =>
    if validFormParts isValidUrl n u fs then
      some { id := b.id, name := n, description := b.description, pdfUrl := u, fields := fs }
    else none
  | _, _, _ => none

/-- A persisted form document: the payload written by `createForm`
(`{...parsed.data, fields, createdAt, updatedAt}`).  `idAttr` is the
optional `id` attribute stored inside the document body (distinct from
the document key in the collection), present exactly when the creating
payload carried one. -/
structure StoredDoc where
  idAttr : Option String := none
  name : String
  description : Option String := none
  pdfUrl : String
  fields : List FormField
  createdAt : Nat
  updatedAt : Nat
deriving DecidableEq, Repr

/-- The document store: an association list from document key to stored
document, plus the state of the document-id generator. -/
structure Store where
  docs : List (String × StoredDoc) := []
  nextId : Nat := 0
deriving DecidableEq, Repr

/-- `getDoc(doc(db, 'forms', k))`: first document stored under key `k`. -/
def findDoc (docs : List (String × StoredDoc)) (k : String) : Option StoredDoc :=
  (docs.find? (fun p => p.1 == k)).map Prod.snd

/-- `updateDoc` result at the store level: every entry under key `k` is
replaced by the new document (keys are unique in Firestore). -/
def setDoc (docs : List (String × StoredDoc)) (k : String) (d : StoredDoc) :
    List (String × StoredDoc) :=
  docs.map (fun p => if p.1 == k then (k, d) else p)

/-- The uniform response envelope `{ success, data?, message?, error? }`;
`error` records whether an error payload was attached. -/
structure ApiResponse (α : Type) where
  success : Bool
  data : Option α := none
  message : Option String := none
  error : Bool := false
deriving DecidableEq, Repr

/-- JS truthiness of an optional field id: `field.id ||` generates a
fresh id when the id is absent or the empty string. -/
def idMissing : Option String → Bool
  | none => true
  | some s => s == ""

/-- `{...field, id: i}`. -/
def setFieldId (f : FormField) (i : String) : FormField := { f with id := some i }

/-- `ensureFieldIds(fields)`: `fields.map(field => ({...field, id:
field.id || doc(collection(db, 'forms')).id}))`.  The Firestore id
generator is modelled as `gen` applied to successive counter values; the
returned `Nat` is the advanced counter. -/
def ensureFieldIds (gen : Nat → String) : Nat → List FormField → List FormField × Nat
  | n, [] => ([], n)
  | n, f :: fs =>
    if idMissing f.id then
      let r := ensureFieldIds gen (n + 1) fs
      (setFieldId f (gen n) :: r.1, r.2)
    else
      let r := ensureFieldIds gen n fs
      (f :: r.1, r.2)

/-- The raw form object returned by the mutating repository operations:
`{ id: docRef.id, ...docSnap.data() }`.  Because the document body is
spread after the `id` key, a stored `id` attribute overrides the
document key. -/
structure RawForm where
  id : String
  name : String
  description : Option String := none
  pdfUrl : String
  fields : List FormField
  createdAt : Nat
  updatedAt : Nat
deriving DecidableEq, Repr

/-- Reassemble `{ id: key, ...doc }` (stored `id` attribute wins over the
document key, mirroring the object-spread order in the source). -/
def docToRaw (k : String) (d : StoredDoc) : RawForm :=
  { id := d.idAttr.getD k, name := d.name, description := d.description,
    pdfUrl := d.pdfUrl, fields := d.fields, createdAt := d.createdAt,
    updatedAt := d.updatedAt }

/-- `getForm`/`getForms` read path: `{ id: docSnap.id, ...raw, createdAt:
ISO, updatedAt: ISO }` re-parsed through `FormSchema` (which strips the
timestamps).  Returns `none` when the stored document fails the schema. -/
def docToParsed (isValidUrl : String → Bool) (k : String) (d : StoredDoc) :
    Option ParsedForm :=
  if validFormParts isValidUrl d.name d.pdfUrl d.fields then
    some { id := some (d.idAttr.getD k), name := d.name, description := d.description,
           pdfUrl := d.pdfUrl, fields := d.fields }
  else none

/-- `formServerUtils.createForm`: validate, assign field ids, stamp
timestamps, `addDoc` (a fresh generated document key), read back and
return `{ id: docRef.id, ...createdForm }`. -/
def createForm (isValidUrl : String → Bool) (gen : Nat → String) (now : Nat)
    (st : Store) (b : FormBody) : ApiResponse RawForm × Store :=
  match parseFormInput isValidUrl b with
  | none =>
    ({ success := false, message := some "Validation failed", error := true }, st)
  | some parsed =>
    let r := ensureFieldIds gen st.nextId parsed.fields
    let docKey := gen r.2
    let d : StoredDoc :=
      { idAttr := parsed.id, name := parsed.name, description := parsed.description,
        pdfUrl := parsed.pdfUrl, fields := r.1, createdAt := now, updatedAt := now }
    ({ success := true, data := some (docToRaw docKey d) },
     { docs := st.docs ++ [(docKey, d)], nextId := r.2 + 1 })

/-- `formServerUtils.getForm`: fetch by key, reassemble with ISO
timestamps, re-validate through `FormSchema` before returning. -/
def getForm (isValidUrl : String → Bool) (st : Store) (formId : String) :
    ApiResponse ParsedForm :=
  match findDoc st.docs formId with
  | some d =>
    match docToParsed isValidUrl formId d with
    | some p => { success := true, data := some p }
    | none => { success := false, message := some "Invalid form schema", error := true }
  | none => { success := false, message := some "Form not found" }

/-- Character-list comparison underlying the model of Firestore's
deterministic ordering tiebreak on document keys. -/
def charsLe : List Char → List Char → Bool
  | [], _ => true
  | _ :: _, [] => false
  | a :: as, b :: bs =>
    if a.toNat < b.toNat then true
    else if b.toNat < a.toNat then false
    else charsLe as bs

/-- Key comparison for the ordering tiebreak. -/
def strLe (a b : String) : Bool := charsLe a.data b.data

/-- The Firestore query ordering `orderBy('createdAt', 'desc')`: newer
documents first, ties broken deterministically by document key. -/
def docLe (a b : String × StoredDoc) : Bool :=
  b.2.createdAt < a.2.createdAt || (a.2.createdAt == b.2.createdAt && strLe a.1 b.1)

/-- Insertion into a list sorted by `docLe`. -/
def insertDoc (x : String × StoredDoc) : List (String × StoredDoc) → List (String × StoredDoc)
  | [] => [x]
  | y :: ys => if docLe x y then x :: y :: ys else y :: insertDoc x ys

/-- The ordered view of the collection produced by
`query(baseQuery, orderBy('createdAt', 'desc'))`. -/
def sortDocs (l : List (String × StoredDoc)) : List (String × StoredDoc) :=
  l.foldr insertDoc []

/-- The `data` payload of a successful `getForms`. -/
structure FormsPage where
  forms : List ParsedForm
  total : Nat
deriving DecidableEq, Repr

/-- `options.limit || 10`: a missing or zero (falsy) limit falls back to
10. -/
def limitOrDefault (limitOpt : Option Nat) : Nat :=
  match limitOpt with
  | some n => if n == 0 then 10 else n
  | none => 10

/-- The offset-skipping cursor of `getForms`: when `offset > 0`, a skip
query reads the first `offset` documents of the ordering and the page
resumes `startAfter` the last of them (strictly after that document);
with no skipped documents the page starts at the beginning. -/
def pageStart (sorted : List (String × StoredDoc)) (offsetOpt : Option Nat) :
    List (String × StoredDoc) :=
  match offsetOpt with
  | some off =>
    if 0 < off then
      match (sorted.take off).getLast? with
      | some lastDoc => (sorted.dropWhile (fun x => !(x == lastDoc))).drop 1
      | none => sorted
    else sorted
  | none => sorted

/-- `formServerUtils.getForms` (the `src/` variant): `limitValue =
options.limit || 10`; when `offset > 0`, a skip query fetches the first
`offset` documents and the page query resumes `startAfter` its last
document; each page document is re-parsed through `FormSchema` (failures
are skipped with a warning); `total` is a server count of the whole
collection. -/
def getForms (isValidUrl : String → Bool) (st : Store)
    (limitOpt offsetOpt : Option Nat) : ApiResponse FormsPage :=
  let limitValue := limitOrDefault limitOpt
  let sorted := sortDocs st.docs
  let page := (pageStart sorted offsetOpt).take limitValue
  let forms := page.filterMap (fun q => docToParsed isValidUrl q.1 q.2)
  { success := true, data := some { forms := forms, total := st.docs.length } }

/-- `formServerUtils.updateForm`: not-found check, strip `id`/`createdAt`
from the caller payload (`const { id, createdAt, ...allowedUpdates } =
updateData`), stamp `updatedAt`, run `ensureFieldIds` when `fields` is
part of the update, re-validate the merged document, then `updateDoc`
with the (id/createdAt-free) payload. -/
def updateForm (isValidUrl : String → Bool) (gen : Nat → String) (now : Nat)
    (st : Store) (formId : String) (u : FormBody) : ApiResponse ParsedForm × Store :=
  match findDoc st.docs formId with
  | none => ({ success := false, message := some "Form not found" }, st)
  | some d =>
    let rf : Option (List FormField) × Nat :=
      match u.fields with
      | some fs =>
        let r := ensureFieldIds gen st.nextId fs
        (some r.1, r.2)
      | none => (none, st.nextId)
    let mName := u.name.getD d.name
    let mDesc := match u.description with
      | some x => some x
      | none => d.description
    let mUrl := u.pdfUrl.getD d.pdfUrl
    let mFields := rf.1.getD d.fields
    if validFormParts isValidUrl mName mUrl mFields then
      let d' : StoredDoc :=
        { idAttr := d.idAttr, name := mName, description := mDesc, pdfUrl := mUrl,
          fields := mFields, createdAt := d.createdAt, updatedAt := now }
      ({ success := true,
         data := some { id := some formId, name := mName, description := mDesc,
                        pdfUrl := mUrl, fields := mFields } },
       { docs := setDoc st.docs formId d', nextId := rf.2 })
    else
      ({ success := false, message := some "Validation failed", error := true }, st)

/-- `formServerUtils.deleteForm`: not-found check, then `deleteDoc`. -/
def deleteForm (st : Store) (formId : String) : ApiResponse Unit × Store :=
  match findDoc st.docs formId with
  | none => ({ success := false, message := some "Form not found" }, st)
  | some _ =>
    ({ success := true, message := some "Form deleted successfully", data := some () },
     { st with docs := st.docs.filter (fun p => !(p.1 == formId)) })

/-- A partial field update (`Partial<FormField>`). -/
structure FieldUpdate where
  id : Option String := none
  name : Option String := none
  label : Option String := none
  type : Option String := none
  required : Option Bool := none
  placeholder : Option String := none
  options : Option (List SelectOption) := none
  position : Option FieldPosition := none
  validation : Option FieldValidation := none
deriving DecidableEq, Repr

/-- `{ ...updatedFields[fieldIndex], ...fieldUpdates, id: fieldId }`. -/
def mergeFieldUpdate (f : FormField) (u : FieldUpdate) (fieldId : String) : FormField :=
  { id := some fieldId,
    name := u.name.getD f.name,
    label := u.label.getD f.label,
    type := u.type.getD f.type,
    required := match u.required with | some b => some b | none => f.required,
    placeholder := match u.placeholder with | some p => some p | none => f.placeholder,
    options := match u.options with | some o => some o | none => f.options,
    position := match u.position with | some p => some p | none => f.position,
    validation := match u.validation with | some v => some v | none => f.validation }

/-- `formServerUtils.updateField`: not-found checks for form and field,
splice-replace the matching field preserving its id, stamp `updatedAt`,
persist and return the reloaded raw form. -/
def updateField (now : Nat) (st : Store) (formId fieldId : String)
    (u : FieldUpdate) : ApiResponse RawForm × Store :=
  match findDoc st.docs formId with
  | none => ({ success := false, message := some "Form not found" }, st)
  | some d =>
    match d.fields.findIdx? (fun f => f.id == some fieldId) with
    | none => ({ success := false, message := some "Field not found" }, st)
    | some i =>
      match d.fields[i]? with
      | none => ({ success := false, message := some "Field not found" }, st)
      | some old =>
        let d' : StoredDoc :=
          { d with fields := d.fields.set i (mergeFieldUpdate old u fieldId),
                   updatedAt := now }
        ({ success := true, data := some (docToRaw formId d') },
         { st with docs := setDoc st.docs formId d' })

/-- `formServerUtils.removeField`: not-found check for the form only,
then `currentFields.filter(field => field.id !== fieldId)`, stamp
`updatedAt`, persist and return the reloaded raw form.  There is no
field-existence check. -/
def removeField (now : Nat) (st : Store) (formId fieldId : String) :
    ApiResponse RawForm × Store :=
  match findDoc st.docs formId with
  | none => ({ success := false, message := some "Form not found" }, st)
  | some d =>
    let d' : StoredDoc :=
      { d with fields := d.fields.filter (fun f => !(f.id == some fieldId)),
               updatedAt := now }
    ({ success := true, data := some (docToRaw formId d') },
     { st with docs := setDoc st.docs formId d' })

/- ------------------------------------------------------------------
HTTP dispatch handler (the API route): a `switch (req.method)` whose
`"POST"` case sends its response but does not `return`/`break`, so
control falls through into the `"GET"` case.  The embedding records the
sequence of repository calls made and the sequence of attempted response
sends (status codes); the effective HTTP response is the first send.
------------------------------------------------------------------ -/

/-- A repository operation invoked by the handler. -/
inductive RepoCall where
  | rcCreateForm
  | rcGetForm (id : String)
  | rcGetForms (lim off : Nat)
  | rcUpdateForm (id : String)
  | rcDeleteForm (id : String)
deriving DecidableEq, Repr

/-- An inbound request: method, `id` query parameter, parsed
`limit`/`offset` query parameters and the JSON body. -/
structure HandlerReq where
  method : String
  qid : Option String := none
  qlimit : Option Nat := none
  qoffset : Option Nat := none
  body : FormBody := {}
deriving Repr

/-- The `case "GET"` block: with an `id`, `getForm` (the envelope object
is always truthy, so the `if (!form)` 404 guard never fires and the
status is 200); without, `getForms` with `limit`/`offset` defaulting to
the strings '10'/'0' before `parseInt`. -/
def handleGet (isValidUrl : String → Bool) (st : Store) (req : HandlerReq) :
    List RepoCall × List Nat :=
  match req.qid with
  | some i =>
    let _form := getForm isValidUrl st i
    ([RepoCall.rcGetForm i], [200])
  | none =>
    let lim := req.qlimit.getD 10
    let off := req.qoffset.getD 0
    let _forms := getForms isValidUrl st (some lim) (some off)
    ([RepoCall.rcGetForms lim off], [200])

/-- The API route handler.  The `"POST"` arm performs `createForm` and
sends 201/404, then — lacking `return`/`break` — falls through into the
`"GET"` arm.  `"PUT"`/`"DELETE"` 400 without an id; their result
envelopes are always truthy so the `if (!result)` guards never fire.
Unknown methods get 405. -/
def handler (isValidUrl : String → Bool) (gen : Nat → String) (now : Nat)
    (st : Store) (req : HandlerReq) : Store × List RepoCall × List Nat :=
  if req.method == "POST" then
    let r := createForm isValidUrl gen now st req.body
    let g := handleGet isValidUrl r.2 req
    (r.2, RepoCall.rcCreateForm :: g.1, (if r.1.success then 201 else 404) :: g.2)
  else if req.method == "GET" then
    let g := handleGet isValidUrl st req
    (st, g.1, g.2)
  else if req.method == "PUT" then
    match req.qid with
    | none => (st, [], [400])
    | some i =>
      let r := updateForm isValidUrl gen now st i req.body
      (r.2, [RepoCall.rcUpdateForm i], [200])
  else if req.method == "DELETE" then
    match req.qid with
    | none => (st, [], [400])
    | some i =>
      let r := deleteForm st i
      (r.2, [RepoCall.rcDeleteForm i], [200])
  else
    (st, [], [405])

/- ------------------------------------------------------------------
Client data store (`form.store.ts`): draft values, state shape and
`validateFormData`.
------------------------------------------------------------------ -/

/-- A draft value held in the client `formData` map: string, number,
selection array, file reference, or null. -/
inductive DraftValue where
  | vstr (s : String)
  | vnum (n : Int)
  | varr (xs : List String)
  | vfile
  | vnull
deriving DecidableEq, Repr

/-- JS truthiness of `formData[field.name]` (absent = `undefined`):
empty strings, zero, `null` and `undefined` are falsy; arrays and file
references are always truthy. -/
def truthy : Option DraftValue → Bool
  | none => false
  | some (DraftValue.vstr s) => s != ""
  | some (DraftValue.vnum n) => n != 0
  | some (DraftValue.varr _) => true
  | some DraftValue.vfile => true
  | some DraftValue.vnull => false

/-- `!Array.isArray(value) || value.length === 0`. -/
def checkboxMissing : Option DraftValue → Bool
  | some (DraftValue.varr xs) => xs.isEmpty
  | _ => true

/-- `typeof value === 'string' && !value.trim()`. -/
def strBlank : Option DraftValue → Bool
  | some (DraftValue.vstr s) => s.trim == ""
  | _ => false

/-- `String(value)` for the draft-value variants. -/
def jsToString : DraftValue → String
  | DraftValue.vstr s => s
  | DraftValue.vnum n => toString n
  | DraftValue.varr xs => String.intercalate "," xs
  | DraftValue.vfile => "[object File]"
  | DraftValue.vnull => "null"

/-- `Number(value)`, `none` standing for NaN (numeric comparisons against
NaN are all false).  Integer-valued approximation of the JS coercion. -/
def jsToNumber : DraftValue → Option Int
  | DraftValue.vnum n => some n
  | DraftValue.vstr s => if s.trim == "" then some 0 else s.toInt?
  | DraftValue.varr [] => some 0
  | DraftValue.varr [x] => if x.trim == "" then some 0 else x.toInt?
  | DraftValue.varr _ => none
  | DraftValue.vfile => none
  | DraftValue.vnull => some 0

/-- The client store state slice relevant to the embedded actions.  The
client-side `Form` objects carry the raw shape (id, attributes,
timestamps). -/
structure ClientState where
  forms : List RawForm := []
  selectedForm : Option RawForm := none
  selectedFields : List String := []
  formData : List (String × DraftValue) := []
  isFormLoading : Bool := false
  formError : Option String := none
deriving DecidableEq, Repr

/-- `formData[field.name]` lookup. -/
def lookupDraft (fd : List (String × DraftValue)) (k : String) : Option DraftValue :=
  (fd.find? (fun p => p.1 == k)).map Prod.snd

/-- `errors[key] = msg` on a JS object modelled as an insertion-ordered
association list: overwrite in place if the key exists, else append. -/
def setErr (errs : List (String × String)) (k msg : String) : List (String × String) :=
  if errs.any (fun p => p.1 == k) then
    errs.map (fun p => if p.1 == k then (k, msg) else p)
  else errs ++ [(k, msg)]

/-- The required-field block of `validateFormData` for one field. -/
def checkRequired (errs : List (String × String)) (field : FormField)
    (v : Option DraftValue) : List (String × String) :=
  if field.required.getD false then
    if field.type == "checkbox" && checkboxMissing v then
      setErr errs field.name (field.label ++ " is required")
    else if field.type == "file" && !truthy v then
      setErr errs field.name (field.label ++ " is required")
    else if !truthy v || strBlank v then
      setErr errs field.name (field.label ++ " is required")
    else errs
  else errs

/-- One conditional rule of the validation block: the fired message, or
`none` when the rule does not fire.  `if (val.minLength && stringValue.
length < val.minLength)`: the bound is truthy-guarded, so a zero bound
is skipped. -/
def ruleMinLength (val : FieldValidation) (label sv : String) : Option String :=
  match val.minLength with
  | some m =>
    if !(m == 0) && (Int.ofNat sv.length < m) then
      some (label ++ " must be at least " ++ toString m ++ " characters")
    else none
  | none => none

/-- `if (val.maxLength && stringValue.length > val.maxLength)`. -/
def ruleMaxLength (val : FieldValidation) (label sv : String) : Option String :=
  match val.maxLength with
  | some m =>
    if !(m == 0) && (Int.ofNat sv.length > m) then
      some (label ++ " must be no more than " ++ toString m ++ " characters")
    else none
  | none => none

/-- `if (val.min !== undefined && numValue < val.min)`: presence-guarded. -/
def ruleMin (val : FieldValidation) (label : String) (nv : Int) : Option String :=
  match val.min with
  | some m => if nv < m then some (label ++ " must be at least " ++ toString m) else none
  | none => none

/-- `if (val.max !== undefined && numValue > val.max)`. -/
def ruleMax (val : FieldValidation) (label : String) (nv : Int) : Option String :=
  match val.max with
  | some m => if nv > m then some (label ++ " must be no more than " ++ toString m) else none
  | none => none

/-- `if (cond) errors[field.name] = msg`: apply a fired rule to the error
map. -/
def applyRuleOpt (errs : List (String × String)) (k : String) (o : Option String) :
    List (String × String) :=
  match o with
  | some msg => setErr errs k msg
  | none => errs

/-- The `if (value && field.validation)` rules block of
`validateFormData` for one field: length bounds, then numeric bounds for
number-typed fields. -/
def checkRules (errs : List (String × String)) (field : FormField)
    (v : Option DraftValue) : List (String × String) :=
  match v with
  | none => errs
  | some dv =>
    match field.validation with
    | none => errs
    | some val =>
      if truthy (some dv) then
        let sv := jsToString dv
        let e1 := applyRuleOpt errs field.name (ruleMinLength val field.label sv)
        let e2 := applyRuleOpt e1 field.name (ruleMaxLength val field.label sv)
        if field.type == "number" then
          match jsToNumber dv with
          | some nv =>
            let e3 := applyRuleOpt e2 field.name (ruleMin val field.label nv)
            applyRuleOpt e3 field.name (ruleMax val field.label nv)
          | none => e2
        else e2
      else errs

/-- The result of `validateFormData`: `{ isValid, errors }`. -/
structure ValidationResult where
  isValid : Bool
  errors : List (String × String)
deriving DecidableEq, Repr

/-- `validateFormData` of the client store: with no selected form the
result is valid and empty; otherwise every field of the selected form is
checked against the draft `formData`.  The action only reads state
(`get()`); the returned state is the input state. -/
def validateFormData (s : ClientState) : ClientState × ValidationResult :=
  match s.selectedForm with
  | none => (s, { isValid := true, errors := [] })
  | some form =>
    let errors := form.fields.foldl
      (fun errs field =>
        let v := lookupDraft s.formData field.name
        checkRules (checkRequired errs field v) field v)
      []
    (s, { isValid := errors.isEmpty, errors := errors })

/- ------------------------------------------------------------------
Concrete sample inputs used by witnesses and counterexamples.
------------------------------------------------------------------ -/

/-- A concrete URL-validity predicate for evaluation. -/
def exUrl (s : String) : Bool := s == "https://x/y.pdf"

/-- A concrete id generator for evaluation: nonempty, injective. -/
def exGen (k : Nat) : String := String.mk (List.replicate (k + 1) 'd')

/-- A concrete valid field carrying an id. -/
def exField : FormField := { id := some "a", name := "email", label := "Email", type := "email" }

/-- A concrete valid field lacking an id. -/
def exFieldNoId : FormField := { name := "email", label := "Email", type := "email" }

/-- A concrete stored document. -/
def exDoc : StoredDoc :=
  { name := "Intake", pdfUrl := "https://x/y.pdf", fields := [exField],
    createdAt := 1, updatedAt := 1 }

/-- A store holding `exDoc` under key "f1". -/
def exStore : Store := { docs := [("f1", exDoc)], nextId := 0 }

/-- A concrete valid creation body. -/
def exBody : FormBody :=
  { name := some "Intake", pdfUrl := some "https://x/y.pdf", fields := some [exFieldNoId] }

/-- The same body with a caller-supplied form id attribute. -/
def exBodyWithId : FormBody := { exBody with id := some "x" }

/-- A concrete required checkbox field. -/
def exCheckboxField : FormField :=
  { id := some "c1", name := "topics", label := "Topics", type := "checkbox",
    required := some true }

/-- A concrete client-side form holding only the checkbox field. -/
def exClientForm : RawForm :=
  { id := "f1", name := "Intake", pdfUrl := "https://x/y.pdf",
    fields := [exCheckboxField], createdAt := 1, updatedAt := 1 }

/-- A concrete client state with the checkbox form selected and an empty
draft. -/
def exClientState : ClientState := { selectedForm := some exClientForm }

/-- A field with its id removed: used to state that `ensureFieldIds`
changes nothing but ids. -/
def eraseFieldId (f : FormField) : FormField := { f with id := none }

/- ------------------------------------------------------------------
Store helper lemmas.
------------------------------------------------------------------ -/

lemma findDoc_setDoc_self (docs : List (String × StoredDoc)) (k : String) (d' : StoredDoc) :
    findDoc (setDoc docs k d') k = (findDoc docs k).map (fun _ => d') := by
  induction docs with
  | nil => rfl
  | cons p ps ih =>
    simp only [setDoc, findDoc, List.map_cons] at ih ⊢
    by_cases h : p.1 = k
    · have hb : (p.1 == k) = true := by simpa using h
      rw [if_pos hb]
      simp [List.find?_cons, hb]
    · have hb : (p.1 == k) = false := by simpa using h
      rw [if_neg (by simp [hb])]
      simp only [List.find?_cons, hb]
      exact ih

lemma findDoc_setDoc_ne (docs : List (String × StoredDoc)) (k k' : String) (d' : StoredDoc)
    (h : k' ≠ k) :
    findDoc (setDoc docs k d') k' = findDoc docs k' := by
  induction docs with
  | nil => rfl
  | cons p ps ih =>
    simp only [setDoc, findDoc, List.map_cons] at ih ⊢
    by_cases hp : p.1 = k
    · have hb : (p.1 == k) = true := by simpa using hp
      rw [if_pos hb]
      have hkk' : (k == k') = false := by simpa using (Ne.symm h)
      have hpk' : (p.1 == k') = false := by rw [hp]; exact hkk'
      simp only [List.find?_cons, hkk', hpk']
      exact ih
    · have hb : (p.1 == k) = false := by simpa using hp
      rw [if_neg (by simp [hb])]
      cases hpk : (p.1 == k') with
      | true => simp only [List.find?_cons, hpk]
      | false =>
        simp only [List.find?_cons, hpk]
        exact ih

/- ------------------------------------------------------------------
Claim theorems.
------------------------------------------------------------------ -/

/-- C10: when no form is selected, `validateFormData` returns isValid
true with an empty error mapping, regardless of the draft `formData`,
and leaves the state unchanged. -/
theorem c10_validateFormData_no_selection (s : ClientState)
    (h : s.selectedForm = none) :
    validateFormData s = (s, { isValid := true, errors := [] }) := by
  unfold validateFormData
  rw [h]

theorem c10_validateFormData_no_selection_witness :
    ({ formData := [("email", DraftValue.vstr "zzz")] } : ClientState).selectedForm = none ∧
      validateFormData { formData := [("email", DraftValue.vstr "zzz")] } =
        ({ formData := [("email", DraftValue.vstr "zzz")] }, { isValid := true, errors := [] }) :=
  ⟨rfl, c10_validateFormData_no_selection { formData := [("email", DraftValue.vstr "zzz")] } rfl⟩

/-- C7: `updateField` on a stored form and a fieldId matching none of its
fields fails with the FieldNotFound message and leaves the store (hence
the stored document, its field array and its `updatedAt`) entirely
unchanged. -/
theorem c7_updateField_absent_field (now : Nat) (st : Store) (formId fieldId : String)
    (u : FieldUpdate) (d : StoredDoc)
    (hfind : findDoc st.docs formId = some d)
    (habsent : ∀ f ∈ d.fields, f.id ≠ some fieldId) :
    updateField now st formId fieldId u =
      ({ success := false, message := some "Field not found" }, st) := by
  have hidx : d.fields.findIdx? (fun f => f.id == some fieldId) = none := by
    rw [List.findIdx?_eq_none_iff]
    intro f hf
    simpa using habsent f hf
  simp only [updateField, hfind, hidx]

theorem c7_updateField_absent_field_witness :
    (findDoc exStore.docs "f1" = some exDoc ∧ ∀ f ∈ exDoc.fields, f.id ≠ some "b") ∧
      updateField 7 exStore "f1" "b" {} =
        ({ success := false, message := some "Field not found" }, exStore) :=
  ⟨⟨rfl, by decide⟩, c7_updateField_absent_field 7 exStore "f1" "b" {} exDoc rfl (by decide)⟩

/-- C1 counterexample: `removeField` on a stored form and a fieldId
matching no field reports success (it does not fail with a
FieldNotFound message), refuting the claim at this input. -/
theorem c1_removeField_counterexample :
    (removeField 7 exStore "f1" "b").1.success = true ∧
      (removeField 7 exStore "f1" "b").1.message = none := by decide

/-- C1 (amended): `removeField` on a fieldId matching no field of the
stored form reports success, leaves the remaining fields unchanged (the
field array is rewritten identically) and bumps only `updatedAt`. -/
theorem c1_removeField_absent_succeeds (now : Nat) (st : Store) (formId fieldId : String)
    (d : StoredDoc)
    (hfind : findDoc st.docs formId = some d)
    (habsent : ∀ f ∈ d.fields, f.id ≠ some fieldId) :
    removeField now st formId fieldId =
      ({ success := true, data := some (docToRaw formId { d with updatedAt := now }) },
       { st with docs := setDoc st.docs formId { d with updatedAt := now } }) := by
  have hfilter : d.fields.filter (fun f => !(f.id == some fieldId)) = d.fields := by
    rw [List.filter_eq_self]
    intro f hf
    simpa using habsent f hf
  simp only [removeField, hfind, hfilter]

theorem c1_removeField_absent_succeeds_witness :
    (findDoc exStore.docs "f1" = some exDoc ∧ ∀ f ∈ exDoc.fields, f.id ≠ some "b") ∧
      removeField 7 exStore "f1" "b" =
        ({ success := true, data := some (docToRaw "f1" { exDoc with updatedAt := 7 }) },
         { exStore with docs := setDoc exStore.docs "f1" { exDoc with updatedAt := 7 } }) :=
  ⟨⟨rfl, by decide⟩, c1_removeField_absent_succeeds 7 exStore "f1" "b" exDoc rfl (by decide)⟩

/-- C3: a creation body violating any one of the schema rules (empty
name, malformed pdfUrl, empty fields array, or a field type outside the
closed enumeration) makes `createForm` fail with the ValidationError
envelope, and no document is persisted: the store is unchanged. -/
theorem c3_createForm_invalid_no_write (isValidUrl : String → Bool) (gen : Nat → String)
    (now : Nat) (st : Store) (b : FormBody)
    (hbad : b.name = some "" ∨
            (∃ u, b.pdfUrl = some u ∧ isValidUrl u = false) ∨
            b.fields = some ([] : List FormField) ∨
            (∃ fs f, b.fields = some fs ∧ f ∈ fs ∧ validFieldType f.type = false)) :
    createForm isValidUrl gen now st b =
      ({ success := false, message := some "Validation failed", error := true }, st) := by
  have hparse : parseFormInput isValidUrl b = none := by
    unfold parseFormInput
    cases hn : b.name with
    | none => rfl
    | some n =>
      cases hu : b.pdfUrl with
      | none => rfl
      | some u =>
        cases hfs : b.fields with
        | none => rfl
        | some fs =>
          have hvf : validFormParts isValidUrl n u fs = false := by
            rcases hbad with h1 | h2 | h3 | h4
            · rw [hn] at h1
              cases h1
              simp [validFormParts]
            · obtain ⟨u', hu', hbadu⟩ := h2
              rw [hu] at hu'
              cases hu'
              simp [validFormParts, hbadu]
            · rw [hfs] at h3
              cases h3
              simp [validFormParts]
            · obtain ⟨fs', f, hfs', hmem, hbadt⟩ := h4
              rw [hfs] at hfs'
              cases hfs'
              have : fs.all validFormField = false := by
                rw [Bool.eq_false_iff]
                intro hall
                rw [List.all_eq_true] at hall
                have := hall f hmem
                simp [validFormField, hbadt] at this
              simp [validFormParts, this]
          simp [hvf]
  simp only [createForm, hparse]

theorem c3_createForm_invalid_no_write_witness :
    (({ exBody with fields := some [] } : FormBody).name = some "" ∨
        (∃ u, ({ exBody with fields := some [] } : FormBody).pdfUrl = some u ∧ exUrl u = false) ∨
        ({ exBody with fields := some [] } : FormBody).fields = some ([] : List FormField) ∨
        (∃ fs f, ({ exBody with fields := some [] } : FormBody).fields = some fs ∧ f ∈ fs ∧
          validFieldType f.type = false)) ∧
      createForm exUrl exGen 5 exStore { exBody with fields := some [] } =
        ({ success := false, message := some "Validation failed", error := true }, exStore) :=
  ⟨Or.inr (Or.inr (Or.inl rfl)),
   c3_createForm_invalid_no_write exUrl exGen 5 exStore { exBody with fields := some [] }
     (Or.inr (Or.inr (Or.inl rfl)))⟩

lemma updateForm_meta_frame (isValidUrl : String → Bool) (gen : Nat → String) (now : Nat)
    (st : Store) (formId : String) (u : FormBody) (k : String) :
    (findDoc (updateForm isValidUrl gen now st formId u).2.docs k).map
        (fun x => (x.idAttr, x.createdAt)) =
      (findDoc st.docs k).map (fun x => (x.idAttr, x.createdAt)) := by
  cases hf : findDoc st.docs formId with
  | none => simp [updateForm, hf]
  | some d0 =>
    simp only [updateForm, hf]
    cases huf : u.fields with
    | none =>
      simp only []
      split
      · by_cases hk : k = formId
        · subst hk
          rw [findDoc_setDoc_self, hf]
          rfl
        · rw [findDoc_setDoc_ne _ _ _ _ hk]
      · rfl
    | some fs =>
      simp only []
      split
      · by_cases hk : k = formId
        · subst hk
          rw [findDoc_setDoc_self, hf]
          rfl
        · rw [findDoc_setDoc_ne _ _ _ _ hk]
      · rfl

/-- C4: updating just the name of an existing, schema-valid stored form
changes only the stored `name` and `updatedAt` (description, pdfUrl,
fields, creation time and the stored id attribute are untouched, and all
other documents are untouched); and for every update payload whatsoever,
caller-supplied `id`/`createdAt` values are never written: every stored
document's id attribute and `createdAt` are preserved by `updateForm`. -/
theorem c4_updateForm_name_frame (isValidUrl : String → Bool) (gen : Nat → String)
    (now : Nat) (st : Store) (formId : String) (d : StoredDoc) (newName : String)
    (hfind : findDoc st.docs formId = some d)
    (hname : (newName != "") = true)
    (hurl : isValidUrl d.pdfUrl = true)
    (hfields : (!d.fields.isEmpty && d.fields.all validFormField) = true) :
    ((updateForm isValidUrl gen now st formId { name := some newName }).1.success = true ∧
     findDoc (updateForm isValidUrl gen now st formId { name := some newName }).2.docs formId =
       some { d with name := newName, updatedAt := now } ∧
     ∀ k, k ≠ formId →
       findDoc (updateForm isValidUrl gen now st formId { name := some newName }).2.docs k =
         findDoc st.docs k) ∧
    ∀ (u : FormBody) (k : String),
      (findDoc (updateForm isValidUrl gen now st formId u).2.docs k).map
          (fun x => (x.idAttr, x.createdAt)) =
        (findDoc st.docs k).map (fun x => (x.idAttr, x.createdAt)) := by
  have hvalid : validFormParts isValidUrl newName d.pdfUrl d.fields = true := by
    unfold validFormParts
    rw [Bool.and_eq_true, Bool.and_eq_true, Bool.and_eq_true]
    rw [Bool.and_eq_true] at hfields
    exact ⟨⟨⟨hname, hurl⟩, hfields.1⟩, hfields.2⟩
  have h1 : updateForm isValidUrl gen now st formId { name := some newName } =
      ({ success := true,
         data := some { id := some formId, name := newName, description := d.description,
                        pdfUrl := d.pdfUrl, fields := d.fields } },
       { docs := setDoc st.docs formId { d with name := newName, updatedAt := now },
         nextId := st.nextId }) := by
    simp only [updateForm, hfind]
    simp [hvalid]
  refine ⟨⟨by rw [h1], ?_, ?_⟩, fun u k => updateForm_meta_frame isValidUrl gen now st formId u k⟩
  · rw [h1]
    simp only []
    rw [findDoc_setDoc_self, hfind]
    rfl
  · intro k hk
    rw [h1]
    simp only []
    exact findDoc_setDoc_ne _ _ _ _ hk

theorem c4_updateForm_name_frame_witness :
    (findDoc exStore.docs "f1" = some exDoc ∧ (("New" : String) != "") = true ∧
      exUrl exDoc.pdfUrl = true ∧ (!exDoc.fields.isEmpty && exDoc.fields.all validFormField) = true) ∧
      (((updateForm exUrl exGen 9 exStore "f1" { name := some "New" }).1.success = true ∧
        findDoc (updateForm exUrl exGen 9 exStore "f1" { name := some "New" }).2.docs "f1" =
          some { exDoc with name := "New", updatedAt := 9 } ∧
        ∀ k, k ≠ "f1" →
          findDoc (updateForm exUrl exGen 9 exStore "f1" { name := some "New" }).2.docs k =
            findDoc exStore.docs k) ∧
       ∀ (u : FormBody) (k : String),
         (findDoc (updateForm exUrl exGen 9 exStore "f1" u).2.docs k).map
             (fun x => (x.idAttr, x.createdAt)) =
           (findDoc exStore.docs k).map (fun x => (x.idAttr, x.createdAt))) :=
  ⟨⟨rfl, by decide, by decide, by decide⟩,
   c4_updateForm_name_frame exUrl exGen 9 exStore "f1" exDoc "New" rfl (by decide) (by decide)
     (by decide)⟩

/-- C2 (bug demonstration): a POST request with no id query parameter
does not invoke only `createForm`: the handler's POST arm lacks a
`return`/`break`, so after sending 201 it falls through into the GET arm
and additionally invokes `getForms` (and attempts a second response
send). -/
theorem c2_post_fallthrough :
    (handler exUrl exGen 5 {} { method := "POST", body := exBody }).2 =
      ([RepoCall.rcCreateForm, RepoCall.rcGetForms 10 0], [201, 200]) := by decide

lemma parseFormInput_some (isValidUrl : String → Bool) (b : FormBody) (p : ParsedForm)
    (h : parseFormInput isValidUrl b = some p) :
    p.id = b.id ∧ p.description = b.description ∧
      validFormParts isValidUrl p.name p.pdfUrl p.fields = true := by
  cases hn : b.name with
  | none => simp [parseFormInput, hn] at h
  | some n =>
    cases hu : b.pdfUrl with
    | none => simp [parseFormInput, hn, hu] at h
    | some u =>
      cases hfs : b.fields with
      | none => simp [parseFormInput, hn, hu, hfs] at h
      | some fs =>
        simp only [parseFormInput, hn, hu, hfs] at h
        by_cases hv : validFormParts isValidUrl n u fs = true
        · rw [if_pos hv] at h
          cases h
          exact ⟨rfl, rfl, hv⟩
        · rw [if_neg hv] at h
          exact absurd h (by simp)

lemma ensureFieldIds_all_valid (gen : Nat → String) :
    ∀ (fs : List FormField) (n : Nat),
      (ensureFieldIds gen n fs).1.all validFormField = fs.all validFormField ∧
        (ensureFieldIds gen n fs).1.isEmpty = fs.isEmpty := by
  intro fs
  induction fs with
  | nil => intro n; exact ⟨rfl, rfl⟩
  | cons f fs ih =>
    intro n
    by_cases hm : idMissing f.id = true
    · constructor
      · simp only [ensureFieldIds, if_pos hm, List.all_cons]
        rw [show validFormField (setFieldId f (gen n)) = validFormField f from rfl,
          (ih (n + 1)).1]
      · simp [ensureFieldIds, if_pos hm]
    · constructor
      · simp only [ensureFieldIds, if_neg hm, List.all_cons]
        rw [(ih n).1]
      · simp [ensureFieldIds, if_neg hm]

lemma findDoc_append (l1 l2 : List (String × StoredDoc)) (k : String)
    (h : findDoc l1 k = none) :
    findDoc (l1 ++ l2) k = findDoc l2 k := by
  unfold findDoc at *
  rw [List.find?_append]
  cases hf : l1.find? (fun p => p.1 == k) with
  | none => rfl
  | some q => rw [hf] at h; exact absurd h (by simp)

/-- C5 counterexample: when the creation body itself carries an `id`
attribute, `createForm` persists it inside the document body and the
spread `{ id: docRef.id, ...createdForm }` lets it override the real
document key, so the returned id is the caller's id — under which no
document is stored.  `getForm` at the returned id then fails, refuting
the claim at this input. -/
theorem c5_create_then_get_counterexample :
    (createForm exUrl exGen 5 {} exBodyWithId).1.success = true ∧
      ((createForm exUrl exGen 5 {} exBodyWithId).1.data.map (fun c => c.id)) = some "x" ∧
      (getForm exUrl (createForm exUrl exGen 5 {} exBodyWithId).2 "x").success = false ∧
      (getForm exUrl (createForm exUrl exGen 5 {} exBodyWithId).2 "x").message =
        some "Form not found" := by decide

/-- C5 (amended): for every form successfully created by `createForm`
from a body that does not itself carry an `id` attribute (and with the
generated document key fresh for the store), `getForm` with the returned
id succeeds and returns a Form deep-equal to the created one except for
the createdAt/updatedAt representation (which `FormSchema` re-parsing
strips): same id, name, description, pdfUrl and fields, with the
envelope's success true. -/
theorem c5_create_then_get (isValidUrl : String → Bool) (gen : Nat → String) (now : Nat)
    (st : Store) (b : FormBody)
    (hok : (parseFormInput isValidUrl b).isSome = true)
    (hnoid : b.id = none)
    (hfresh : ∀ k, findDoc st.docs (gen k) = none) :
    (createForm isValidUrl gen now st b).1.success = true ∧
      ((createForm isValidUrl gen now st b).1.data.map (fun c =>
          getForm isValidUrl (createForm isValidUrl gen now st b).2 c.id)) =
        ((createForm isValidUrl gen now st b).1.data.map (fun c =>
          { success := true,
            data := some { id := some c.id, name := c.name, description := c.description,
                           pdfUrl := c.pdfUrl, fields := c.fields } })) := by
  cases hp : parseFormInput isValidUrl b with
  | none => rw [hp] at hok; exact absurd hok (by simp)
  | some p =>
    obtain ⟨hpid, hpdesc, hpvalid⟩ := parseFormInput_some isValidUrl b p hp
    refine ⟨by simp [createForm, hp], ?_⟩
    simp only [createForm, hp]
    rw [show ∀ (β : Type) (g : RawForm → β) (x : RawForm), Option.map g (some x) = some (g x)
      from fun _ _ _ => rfl]
    rw [show ∀ (β : Type) (g : RawForm → β) (x : RawForm), Option.map g (some x) = some (g x)
      from fun _ _ _ => rfl]
    have hkeyid : p.id = none := hpid.trans hnoid
    have hcid : (docToRaw (gen (ensureFieldIds gen st.nextId p.fields).2)
        { idAttr := p.id, name := p.name, description := p.description, pdfUrl := p.pdfUrl,
          fields := (ensureFieldIds gen st.nextId p.fields).1, createdAt := now,
          updatedAt := now }).id = gen (ensureFieldIds gen st.nextId p.fields).2 := by
      simp [docToRaw, hkeyid]
    rw [hcid]
    have hfindnew : findDoc
        (st.docs ++ [(gen (ensureFieldIds gen st.nextId p.fields).2,
          { idAttr := p.id, name := p.name, description := p.description, pdfUrl := p.pdfUrl,
            fields := (ensureFieldIds gen st.nextId p.fields).1, createdAt := now,
            updatedAt := now })])
        (gen (ensureFieldIds gen st.nextId p.fields).2) =
        some { idAttr := p.id, name := p.name, description := p.description,
               pdfUrl := p.pdfUrl, fields := (ensureFieldIds gen st.nextId p.fields).1,
               createdAt := now, updatedAt := now } := by
      rw [findDoc_append _ _ _ (hfresh _)]
      simp [findDoc]
    have hvalid2 : validFormParts isValidUrl p.name p.pdfUrl
        (ensureFieldIds gen st.nextId p.fields).1 = true := by
      unfold validFormParts at hpvalid ⊢
      rw [Bool.and_eq_true, Bool.and_eq_true, Bool.and_eq_true] at hpvalid ⊢
      obtain ⟨ha, hall⟩ := ensureFieldIds_all_valid gen p.fields st.nextId
      refine ⟨⟨⟨hpvalid.1.1.1, hpvalid.1.1.2⟩, ?_⟩, ?_⟩
      · rw [show ((ensureFieldIds gen st.nextId p.fields).1.isEmpty) = p.fields.isEmpty
          from hall]
        exact hpvalid.1.2
      · rw [ha]
        exact hpvalid.2
    simp only [getForm, hfindnew, docToParsed, hvalid2, if_pos]
    simp [docToRaw, hkeyid]

theorem c5_create_then_get_witness :
    ((parseFormInput exUrl exBody).isSome = true ∧ exBody.id = none ∧
      (∀ k, findDoc ({} : Store).docs (exGen k) = none)) ∧
      ((createForm exUrl exGen 5 {} exBody).1.success = true ∧
        ((createForm exUrl exGen 5 {} exBody).1.data.map (fun c =>
            getForm exUrl (createForm exUrl exGen 5 {} exBody).2 c.id)) =
          ((createForm exUrl exGen 5 {} exBody).1.data.map (fun c =>
            ({ success := true,
               data := some { id := some c.id, name := c.name, description := c.description,
                              pdfUrl := c.pdfUrl, fields := c.fields } } : ApiResponse ParsedForm)))) :=
  ⟨⟨by decide, rfl, fun _ => rfl⟩,
   c5_create_then_get exUrl exGen 5 {} exBody (by decide) rfl (fun _ => rfl)⟩

lemma charsLe_total : ∀ as bs, charsLe as bs = true ∨ charsLe bs as = true := by
  intro as
  induction as with
  | nil => intro bs; left; rfl
  | cons a as ih =>
    intro bs
    cases bs with
    | nil => right; rfl
    | cons b bs =>
      simp only [charsLe]
      by_cases hab : a.toNat < b.toNat
      · left; rw [if_pos hab]
      · by_cases hba : b.toNat < a.toNat
        · right; rw [if_pos hba]
        · simp only [if_neg hab, if_neg hba]
          exact ih bs

lemma charsLe_trans :
    ∀ as bs cs, charsLe as bs = true → charsLe bs cs = true → charsLe as cs = true := by
  intro as
  induction as with
  | nil => intro bs cs _ _; rfl
  | cons a as ih =>
    intro bs cs h1 h2
    cases bs with
    | nil => simp [charsLe] at h1
    | cons b bs =>
      cases cs with
      | nil => simp [charsLe] at h2
      | cons c cs =>
        simp only [charsLe] at h1 h2 ⊢
        by_cases hab : a.toNat < b.toNat
        · by_cases hbc : b.toNat < c.toNat
          · rw [if_pos (by omega)]
          · rw [if_neg hbc] at h2
            by_cases hcb : c.toNat < b.toNat
            · rw [if_pos hcb] at h2; exact absurd h2 (by simp)
            · rw [if_pos (by omega)]
        · rw [if_neg hab] at h1
          by_cases hba : b.toNat < a.toNat
          · rw [if_pos hba] at h1; exact absurd h1 (by simp)
          · rw [if_neg hba] at h1
            by_cases hbc : b.toNat < c.toNat
            · rw [if_pos (by omega)]
            · rw [if_neg hbc] at h2
              by_cases hcb : c.toNat < b.toNat
              · rw [if_pos hcb] at h2; exact absurd h2 (by simp)
              · rw [if_neg hcb] at h2
                rw [if_neg (by omega), if_neg (by omega)]
                exact ih bs cs h1 h2

lemma docLe_total (a b : String × StoredDoc) : docLe a b = true ∨ docLe b a = true := by
  by_cases h1 : b.2.createdAt < a.2.createdAt
  · left; simp [docLe, h1]
  · by_cases h2 : a.2.createdAt < b.2.createdAt
    · right; simp [docLe, h2]
    · have he : a.2.createdAt = b.2.createdAt := by omega
      rcases charsLe_total a.1.data b.1.data with h | h
      · left; simp [docLe, strLe, he, h]
      · right; simp [docLe, strLe, he, h]

lemma docLe_trans (a b c : String × StoredDoc) (h1 : docLe a b = true)
    (h2 : docLe b c = true) : docLe a c = true := by
  simp only [docLe, strLe, Bool.or_eq_true, Bool.and_eq_true, beq_iff_eq,
    decide_eq_true_eq] at h1 h2 ⊢
  rcases h1 with h1 | ⟨he1, hs1⟩
  · rcases h2 with h2 | ⟨he2, hs2⟩
    · left; omega
    · left; omega
  · rcases h2 with h2 | ⟨he2, hs2⟩
    · left; omega
    · right; exact ⟨by omega, charsLe_trans _ _ _ hs1 hs2⟩

lemma insertDoc_perm (x : String × StoredDoc) :
    ∀ l, (insertDoc x l).Perm (x :: l) := by
  intro l
  induction l with
  | nil => exact List.Perm.refl _
  | cons y ys ih =>
    simp only [insertDoc]
    split
    · exact List.Perm.refl _
    · exact (ih.cons y).trans (List.Perm.swap x y ys)

lemma sortDocs_perm : ∀ l, (sortDocs l).Perm l := by
  intro l
  induction l with
  | nil => exact List.Perm.refl _
  | cons y ys ih =>
    have h : sortDocs (y :: ys) = insertDoc y (sortDocs ys) := rfl
    rw [h]
    exact (insertDoc_perm y (sortDocs ys)).trans (ih.cons y)

lemma pairwise_insertDoc (x : String × StoredDoc) :
    ∀ l, List.Pairwise (fun a b => docLe a b = true) l →
      List.Pairwise (fun a b => docLe a b = true) (insertDoc x l) := by
  intro l
  induction l with
  | nil => intro _; simp [insertDoc]
  | cons y ys ih =>
    intro h
    rw [List.pairwise_cons] at h
    obtain ⟨hy, hys⟩ := h
    simp only [insertDoc]
    split
    · rename_i hxy
      rw [List.pairwise_cons]
      refine ⟨?_, List.pairwise_cons.mpr ⟨hy, hys⟩⟩
      intro a ha
      rcases List.mem_cons.mp ha with rfl | ha'
      · exact hxy
      · exact docLe_trans x y a hxy (hy a ha')
    · rename_i hxy
      have hyx : docLe y x = true := by
        rcases docLe_total x y with h | h
        · exact absurd h hxy
        · exact h
      rw [List.pairwise_cons]
      refine ⟨?_, ih hys⟩
      intro a ha
      have hmem := (insertDoc_perm x ys).mem_iff.mp ha
      rcases List.mem_cons.mp hmem with rfl | ha'
      · exact hyx
      · exact hy a ha'

lemma sortDocs_pairwise (l : List (String × StoredDoc)) :
    List.Pairwise (fun a b => docLe a b = true) (sortDocs l) := by
  induction l with
  | nil => exact List.Pairwise.nil
  | cons y ys ih => exact pairwise_insertDoc y (sortDocs ys) ih

lemma dropWhile_ne_eq (v : String × StoredDoc) :
    ∀ (l1 : List (String × StoredDoc)) (l2 : List (String × StoredDoc)), v ∉ l1 →
      ((l1 ++ v :: l2).dropWhile (fun x => !(x == v))) = v :: l2 := by
  intro l1
  induction l1 with
  | nil =>
    intro l2 _
    rw [List.nil_append, List.dropWhile_cons, if_neg (by simp)]
  | cons a l1 ih =>
    intro l2 hv
    rw [List.cons_append, List.dropWhile_cons, if_pos ?_]
    · exact ih l2 (fun hm => hv (List.mem_cons_of_mem a hm))
    · have hav : a ≠ v := fun he => hv (he ▸ List.mem_cons_self a l1)
      simp [hav]

lemma pageStart_eq_drop (sorted : List (String × StoredDoc)) (hnd : sorted.Nodup)
    (offsetOpt : Option Nat) :
    pageStart sorted offsetOpt = sorted.drop (offsetOpt.getD 0) := by
  cases offsetOpt with
  | none => rfl
  | some off =>
    simp only [pageStart, Option.getD_some]
    by_cases hoff : 0 < off
    · rw [if_pos hoff]
      cases hl : (sorted.take off).getLast? with
      | none =>
        have h0 : sorted.take off = [] := List.getLast?_eq_none_iff.mp hl
        rcases List.take_eq_nil_iff.mp h0 with h | h
        · omega
        · subst h; simp
      | some v =>
        have hne : sorted.take off ≠ [] := by
          intro h0; rw [h0] at hl; exact absurd hl (by simp)
        have hv : (sorted.take off).getLast hne = v := by
          have hg := List.getLast?_eq_getLast (sorted.take off) hne
          rw [hg] at hl
          exact Option.some.inj hl
        have h1 : (sorted.take off).dropLast ++ [v] = sorted.take off := by
          rw [← hv]; exact List.dropLast_append_getLast hne
        have hsplit : sorted = (sorted.take off).dropLast ++ (v :: sorted.drop off) := by
          conv_lhs => rw [← List.take_append_drop off sorted]
          conv_lhs => rw [← h1]
          rw [List.append_assoc]
          rfl
        have hvnot : v ∉ (sorted.take off).dropLast := by
          have hnd2 : ((sorted.take off).dropLast ++ (v :: sorted.drop off)).Nodup := by
            rw [← hsplit]; exact hnd
          rw [List.nodup_append] at hnd2
          intro hmem
          exact hnd2.2.2 hmem (List.mem_cons_self _ _)
        calc (sorted.dropWhile (fun x => !(x == v))).drop 1
            = (((sorted.take off).dropLast ++ (v :: sorted.drop off)).dropWhile
                (fun x => !(x == v))).drop 1 := by conv_lhs => rw [hsplit]
          _ = (v :: sorted.drop off).drop 1 := by
                rw [dropWhile_ne_eq v _ _ hvnot]
          _ = sorted.drop off := rfl
    · rw [if_neg hoff]
      have h0 : off = 0 := by omega
      subst h0
      rfl

lemma limitOrDefault_eq (limitOpt : Option Nat) (h : limitOpt ≠ some 0) :
    limitOrDefault limitOpt = limitOpt.getD 10 := by
  cases limitOpt with
  | none => rfl
  | some n =>
    have hn : n ≠ 0 := fun h0 => h (by rw [h0])
    simp [limitOrDefault, hn]

/-- C6 counterexample: `options.limit || 10` treats a provided limit of 0
as falsy, so `listForms` with `limit = 0` returns one form from a
one-document store instead of at most 0, refuting the universally
quantified claim. -/
theorem c6_getForms_counterexample :
    ((getForms exUrl exStore (some 0) (some 0)).data.map (fun pg => pg.forms.length)) =
      some 1 := by decide

/-- C6 (amended): for every store state with distinct document keys and
every offset, with any limit other than a provided 0 (a missing limit
defaults to 10; a provided 0 is falsy and also falls back to 10, which
is what the counterexample exhibits), `getForms` succeeds and returns
exactly the documents of the createdAt-descending ordering after
skipping `offset` entries, capped at the limit, each re-parsed through
the schema; the returned `total` is the count of all stored documents,
independent of limit and offset; and the underlying ordering is sorted
by `createdAt` descending. -/
theorem c6_getForms_spec (isValidUrl : String → Bool) (st : Store)
    (limitOpt offsetOpt : Option Nat)
    (hnd : (st.docs.map Prod.fst).Nodup)
    (hlim : limitOpt ≠ some 0) :
    (getForms isValidUrl st limitOpt offsetOpt).success = true ∧
    (getForms isValidUrl st limitOpt offsetOpt).data = some
      { forms := (((sortDocs st.docs).drop (offsetOpt.getD 0)).take
          (limitOpt.getD 10)).filterMap (fun q => docToParsed isValidUrl q.1 q.2),
        total := st.docs.length } ∧
    (∀ pg, (getForms isValidUrl st limitOpt offsetOpt).data = some pg →
      pg.forms.length ≤ limitOpt.getD 10 ∧ pg.total = st.docs.length) ∧
    List.Pairwise (fun a b => b.2.createdAt ≤ a.2.createdAt) (sortDocs st.docs) := by
  have hsortnd : (sortDocs st.docs).Nodup := by
    have h1 : st.docs.Nodup := List.Nodup.of_map Prod.fst hnd
    exact ((sortDocs_perm st.docs).nodup_iff).mpr h1
  have hmain : getForms isValidUrl st limitOpt offsetOpt =
      { success := true,
        data := some
          { forms := (((sortDocs st.docs).drop (offsetOpt.getD 0)).take
              (limitOpt.getD 10)).filterMap (fun q => docToParsed isValidUrl q.1 q.2),
            total := st.docs.length } } := by
    simp only [getForms]
    rw [limitOrDefault_eq limitOpt hlim, pageStart_eq_drop (sortDocs st.docs) hsortnd offsetOpt]
  refine ⟨by rw [hmain], by rw [hmain], ?_, ?_⟩
  · intro pg hpg
    rw [hmain] at hpg
    cases Option.some.inj hpg
    constructor
    · calc ((((sortDocs st.docs).drop (offsetOpt.getD 0)).take
            (limitOpt.getD 10)).filterMap (fun q => docToParsed isValidUrl q.1 q.2)).length
          ≤ (((sortDocs st.docs).drop (offsetOpt.getD 0)).take (limitOpt.getD 10)).length :=
            List.length_filterMap_le _ _
        _ ≤ limitOpt.getD 10 := by
            rw [List.length_take]
            exact min_le_left _ _
    · rfl
  · exact (sortDocs_pairwise st.docs).imp (fun hab => by
      simp only [docLe, Bool.or_eq_true, Bool.and_eq_true, decide_eq_true_eq] at hab
      rcases hab with h | ⟨h, _⟩
      · omega
      · simp only [beq_iff_eq] at h
        omega)

theorem c6_getForms_spec_witness :
    ((exStore.docs.map Prod.fst).Nodup ∧ (some 2 : Option Nat) ≠ some 0) ∧
      ((getForms exUrl exStore (some 2) (some 0)).success = true ∧
       (getForms exUrl exStore (some 2) (some 0)).data = some
         { forms := (((sortDocs exStore.docs).drop ((some 0 : Option Nat).getD 0)).take
             ((some 2 : Option Nat).getD 10)).filterMap
               (fun q => docToParsed exUrl q.1 q.2),
           total := exStore.docs.length } ∧
       (∀ pg, (getForms exUrl exStore (some 2) (some 0)).data = some pg →
         pg.forms.length ≤ (some 2 : Option Nat).getD 10 ∧ pg.total = exStore.docs.length) ∧
       List.Pairwise (fun a b => b.2.createdAt ≤ a.2.createdAt) (sortDocs exStore.docs)) :=
  ⟨⟨by decide, by decide⟩,
   c6_getForms_spec exUrl exStore (some 2) (some 0) (by decide) (by decide)⟩

lemma ensureFieldIds_core (gen : Nat → String) :
    ∀ (fs : List FormField) (n : Nat),
      (ensureFieldIds gen n fs).1.length = fs.length ∧
      n ≤ (ensureFieldIds gen n fs).2 ∧
      ∀ q ∈ (ensureFieldIds gen n fs).1.zip fs,
        (idMissing q.2.id = false → q.1 = q.2) ∧
        (idMissing q.2.id = true → ∃ k, n ≤ k ∧ q.1 = setFieldId q.2 (gen k)) := by
  intro fs
  induction fs with
  | nil =>
    intro n
    exact ⟨rfl, Nat.le_refl n, by intro q hq; cases hq⟩
  | cons f fs ih =>
    intro n
    by_cases hm : idMissing f.id = true
    · obtain ⟨ihl, ihle, ihq⟩ := ih (n + 1)
      refine ⟨?_, ?_, ?_⟩
      · simp only [ensureFieldIds, if_pos hm, List.length_cons, ihl]
      · simp only [ensureFieldIds, if_pos hm]
        omega
      · intro q hq
        simp only [ensureFieldIds, if_pos hm, List.zip_cons_cons] at hq
        rcases List.mem_cons.mp hq with rfl | hq'
        · refine ⟨fun hc => ?_, fun _ => ⟨n, Nat.le_refl n, rfl⟩⟩
          rw [hm] at hc
          cases hc
        · obtain ⟨h1, h2⟩ := ihq q hq'
          refine ⟨h1, fun hmq => ?_⟩
          obtain ⟨k, hk1, hk2⟩ := h2 hmq
          exact ⟨k, by omega, hk2⟩
    · obtain ⟨ihl, ihle, ihq⟩ := ih n
      refine ⟨?_, ?_, ?_⟩
      · simp only [ensureFieldIds, if_neg hm, List.length_cons, ihl]
      · simp only [ensureFieldIds, if_neg hm]
        omega
      · intro q hq
        simp only [ensureFieldIds, if_neg hm, List.zip_cons_cons] at hq
        rcases List.mem_cons.mp hq with rfl | hq'
        · refine ⟨fun _ => rfl, fun hmq => absurd hmq hm⟩
        · exact ihq q hq'

lemma ensureFieldIds_fresh_pairwise (gen : Nat → String)
    (hinj : ∀ a b, gen a = gen b → a = b) :
    ∀ (fs : List FormField) (n : Nat),
      List.Pairwise (fun q1 q2 => idMissing q1.2.id = true → idMissing q2.2.id = true →
        q1.1.id ≠ q2.1.id) ((ensureFieldIds gen n fs).1.zip fs) := by
  intro fs
  induction fs with
  | nil => intro n; exact List.Pairwise.nil
  | cons f fs ih =>
    intro n
    by_cases hm : idMissing f.id = true
    · simp only [ensureFieldIds, if_pos hm, List.zip_cons_cons]
      rw [List.pairwise_cons]
      refine ⟨?_, ih (n + 1)⟩
      intro q hq _ hmq
      obtain ⟨_, _, ihq⟩ := ensureFieldIds_core gen fs (n + 1)
      obtain ⟨k, hk1, hk2⟩ := (ihq q hq).2 hmq
      rw [hk2]
      simp only [setFieldId]
      intro hcon
      have hgg := Option.some.inj hcon
      have := hinj n k hgg
      omega
    · simp only [ensureFieldIds, if_neg hm, List.zip_cons_cons]
      rw [List.pairwise_cons]
      refine ⟨?_, ih n⟩
      intro q hq hmf _
      exact absurd hmf hm

lemma ensureFieldIds_idem (gen : Nat → String) (hne : ∀ k, gen k ≠ "") :
    ∀ (fs : List FormField) (n m : Nat),
      (ensureFieldIds gen m (ensureFieldIds gen n fs).1).1 = (ensureFieldIds gen n fs).1 := by
  intro fs
  induction fs with
  | nil => intro n m; rfl
  | cons f fs ih =>
    intro n m
    by_cases hm : idMissing f.id = true
    · have hgm : idMissing (setFieldId f (gen n)).id = false := by
        simp [setFieldId, idMissing, hne n]
      simp [ensureFieldIds, hm, hgm, ih (n + 1) m]
    · simp [ensureFieldIds, hm, ih n m]

lemma ensureFieldIds_erase (gen : Nat → String) :
    ∀ (fs : List FormField) (n : Nat),
      (ensureFieldIds gen n fs).1.map eraseFieldId = fs.map eraseFieldId := by
  intro fs
  induction fs with
  | nil => intro n; rfl
  | cons f fs ih =>
    intro n
    by_cases hm : idMissing f.id = true
    · simp only [ensureFieldIds, if_pos hm, List.map_cons]
      rw [ih (n + 1)]
      rfl
    · simp only [ensureFieldIds, if_neg hm, List.map_cons]
      rw [ih n]

/-- C8: with an injective, nonempty-valued id generator,
`ensureFieldIds` (a) preserves the number and order of fields and every
attribute other than the id, (b) passes fields that already have a
(truthy) id through unchanged, (c) assigns every field lacking an id a
freshly generated, nonempty id, with the generated ids pairwise
distinct, and (d) is idempotent: a second application (from any
generator state) returns the same list. -/
theorem c8_ensureFieldIds_spec (gen : Nat → String) (fs : List FormField) (n : Nat)
    (hinj : ∀ a b, gen a = gen b → a = b)
    (hne : ∀ k, gen k ≠ "") :
    (ensureFieldIds gen n fs).1.length = fs.length ∧
    (ensureFieldIds gen n fs).1.map eraseFieldId = fs.map eraseFieldId ∧
    (∀ q ∈ (ensureFieldIds gen n fs).1.zip fs, idMissing q.2.id = false → q.1 = q.2) ∧
    (∀ q ∈ (ensureFieldIds gen n fs).1.zip fs, idMissing q.2.id = true →
      ∃ k, q.1 = setFieldId q.2 (gen k) ∧ idMissing q.1.id = false) ∧
    List.Pairwise (fun q1 q2 => idMissing q1.2.id = true → idMissing q2.2.id = true →
      q1.1.id ≠ q2.1.id) ((ensureFieldIds gen n fs).1.zip fs) ∧
    (∀ m, (ensureFieldIds gen m (ensureFieldIds gen n fs).1).1 =
      (ensureFieldIds gen n fs).1) := by
  obtain ⟨hlen, _, hq⟩ := ensureFieldIds_core gen fs n
  refine ⟨hlen, ensureFieldIds_erase gen fs n, fun q hmem => (hq q hmem).1, ?_,
    ensureFieldIds_fresh_pairwise gen hinj fs n, fun m => ensureFieldIds_idem gen hne fs n m⟩
  intro q hmem hmq
  obtain ⟨k, _, hk2⟩ := (hq q hmem).2 hmq
  refine ⟨k, hk2, ?_⟩
  rw [hk2]
  simp [setFieldId, idMissing, hne k]

theorem c8_ensureFieldIds_spec_witness :
    ((∀ a b, exGen a = exGen b → a = b) ∧ (∀ k, exGen k ≠ "")) ∧
      ((ensureFieldIds exGen 0 [exFieldNoId, exField]).1.length =
          ([exFieldNoId, exField] : List FormField).length ∧
       (ensureFieldIds exGen 0 [exFieldNoId, exField]).1.map eraseFieldId =
          ([exFieldNoId, exField] : List FormField).map eraseFieldId ∧
       (∀ q ∈ (ensureFieldIds exGen 0 [exFieldNoId, exField]).1.zip [exFieldNoId, exField],
          idMissing q.2.id = false → q.1 = q.2) ∧
       (∀ q ∈ (ensureFieldIds exGen 0 [exFieldNoId, exField]).1.zip [exFieldNoId, exField],
          idMissing q.2.id = true →
            ∃ k, q.1 = setFieldId q.2 (exGen k) ∧ idMissing q.1.id = false) ∧
       List.Pairwise (fun q1 q2 => idMissing q1.2.id = true → idMissing q2.2.id = true →
          q1.1.id ≠ q2.1.id)
         ((ensureFieldIds exGen 0 [exFieldNoId, exField]).1.zip [exFieldNoId, exField]) ∧
       (∀ m, (ensureFieldIds exGen m (ensureFieldIds exGen 0 [exFieldNoId, exField]).1).1 =
          (ensureFieldIds exGen 0 [exFieldNoId, exField]).1)) :=
  ⟨⟨fun a b h => by
      have hlen := congrArg String.length h
      simp only [exGen] at hlen
      have ha : (String.mk (List.replicate (a + 1) 'd')).length = a + 1 := by
        simp [String.length]
      have hb : (String.mk (List.replicate (b + 1) 'd')).length = b + 1 := by
        simp [String.length]
      rw [ha, hb] at hlen
      omega,
    fun k h => by
      have hlen := congrArg String.length h
      simp only [exGen] at hlen
      have hk : (String.mk (List.replicate (k + 1) 'd')).length = k + 1 := by
        simp [String.length]
      rw [hk] at hlen
      simp at hlen⟩,
   c8_ensureFieldIds_spec exGen [exFieldNoId, exField] 0
     (fun a b h => by
       have hlen := congrArg String.length h
       simp only [exGen] at hlen
       have ha : (String.mk (List.replicate (a + 1) 'd')).length = a + 1 := by
         simp [String.length]
       have hb : (String.mk (List.replicate (b + 1) 'd')).length = b + 1 := by
         simp [String.length]
       rw [ha, hb] at hlen
       omega)
     (fun k h => by
       have hlen := congrArg String.length h
       simp only [exGen] at hlen
       have hk : (String.mk (List.replicate (k + 1) 'd')).length = k + 1 := by
         simp [String.length]
       rw [hk] at hlen
       simp at hlen)⟩

lemma setErr_singleton (k m msg : String) : setErr [(k, m)] k msg = [(k, msg)] := by
  simp [setErr]

lemma applyRuleOpt_key (k : String) (o : Option String) (errs : List (String × String))
    (h : ∃ m, errs = [(k, m)]) : ∃ m', applyRuleOpt errs k o = [(k, m')] := by
  obtain ⟨m, rfl⟩ := h
  cases o with
  | none => exact ⟨m, rfl⟩
  | some msg => exact ⟨msg, setErr_singleton k m msg⟩

lemma checkRules_key (field : FormField) (v : Option DraftValue)
    (errs : List (String × String)) (h : ∃ m, errs = [(field.name, m)]) :
    ∃ m', checkRules errs field v = [(field.name, m')] := by
  cases v with
  | none => simpa [checkRules] using h
  | some dv =>
    cases hval : field.validation with
    | none => simpa [checkRules, hval] using h
    | some val =>
      by_cases ht : truthy (some dv) = true
      · simp only [checkRules, hval, if_pos ht]
        by_cases hnum : (field.type == "number") = true
        · rw [if_pos hnum]
          cases hn : jsToNumber dv with
          | some nv =>
            exact applyRuleOpt_key _ _ _ (applyRuleOpt_key _ _ _
              (applyRuleOpt_key _ _ _ (applyRuleOpt_key _ _ _ h)))
          | none =>
            exact applyRuleOpt_key _ _ _ (applyRuleOpt_key _ _ _ h)
        · rw [if_neg hnum]
          exact applyRuleOpt_key _ _ _ (applyRuleOpt_key _ _ _ h)
      · simpa [checkRules, hval, ht] using h

/-- C9: on a client state whose selected form has exactly one field, a
required checkbox, with no non-empty selection array in the draft
`formData` for that field's name, `validateFormData` reports isValid
false with exactly one error entry, keyed by that field's name, and does
not mutate the state. -/
theorem c9_validateFormData_required_checkbox (s : ClientState) (form : RawForm)
    (f : FormField)
    (hsel : s.selectedForm = some form)
    (hfields : form.fields = [f])
    (hreq : f.required = some true)
    (htype : f.type = "checkbox")
    (hval : ∀ xs, lookupDraft s.formData f.name = some (DraftValue.varr xs) → xs = []) :
    (validateFormData s).1 = s ∧
    (validateFormData s).2.isValid = false ∧
    ∃ msg, (validateFormData s).2.errors = [(f.name, msg)] := by
  have hmiss : checkboxMissing (lookupDraft s.formData f.name) = true := by
    cases hv : lookupDraft s.formData f.name with
    | none => rfl
    | some dv =>
      cases dv with
      | vstr s0 => rfl
      | vnum n0 => rfl
      | varr xs =>
        have hx := hval xs hv
        subst hx
        rfl
      | vfile => rfl
      | vnull => rfl
  have hreqd : checkRequired [] f (lookupDraft s.formData f.name) =
      [(f.name, f.label ++ " is required")] := by
    simp [checkRequired, hreq, htype, hmiss, setErr]
  obtain ⟨m', hm'⟩ := checkRules_key f (lookupDraft s.formData f.name)
    (checkRequired [] f (lookupDraft s.formData f.name)) ⟨_, hreqd⟩
  refine ⟨?_, ?_, ?_⟩
  · simp only [validateFormData, hsel]
  · simp only [validateFormData, hsel, hfields, List.foldl_cons, List.foldl_nil]
    rw [hm']
    rfl
  · refine ⟨m', ?_⟩
    simp only [validateFormData, hsel, hfields, List.foldl_cons, List.foldl_nil]
    rw [hm']

theorem c9_validateFormData_required_checkbox_witness :
    (exClientState.selectedForm = some exClientForm ∧
      exClientForm.fields = [exCheckboxField] ∧
      exCheckboxField.required = some true ∧
      exCheckboxField.type = "checkbox" ∧
      (∀ xs, lookupDraft exClientState.formData exCheckboxField.name =
        some (DraftValue.varr xs) → xs = [])) ∧
      ((validateFormData exClientState).1 = exClientState ∧
       (validateFormData exClientState).2.isValid = false ∧
       ∃ msg, (validateFormData exClientState).2.errors = [(exCheckboxField.name, msg)]) :=
  ⟨⟨rfl, rfl, rfl, rfl, fun xs h => by simp [lookupDraft, exClientState] at h⟩,
   c9_validateFormData_required_checkbox exClientState exClientForm exCheckboxField
     rfl rfl rfl rfl (fun xs h => by simp [lookupDraft, exClientState] at h)⟩
